import Mathlib

/-!
Shallow embedding of the FreshTrack expiry-scanning logic.

The repository's file `src/components/BarcodeScanner.tsx` contains two
variants of the scanner component (a newer one and an older one further
down in the file).  Dates are modelled at whole-day granularity: a parsed
`new Date("YYYY-MM-DD")` is midnight UTC of that calendar day, and the
"today" reference instant is taken at midnight of the current day, so that
`differenceInDays(d, today)` is exactly the difference of day numbers.

All definitions are executable and are translated from the TypeScript
source, function by function.
-/

namespace FreshTrack

/-! ## Calendar dates -/

/-- Gregorian leap-year test (as implemented by JavaScript `Date`). -/
def isLeap (y : Nat) : Bool :=
  y % 4 = 0 && (y % 100 ≠ 0 || y % 400 = 0)

/-- Number of days in a month (`m` is 1-based); 0 for an invalid month. -/
def daysInMonth (y m : Nat) : Nat :=
  if m = 1 ∨ m = 3 ∨ m = 5 ∨ m = 7 ∨ m = 8 ∨ m = 10 ∨ m = 12 then 31
  else if m = 4 ∨ m = 6 ∨ m = 9 ∨ m = 11 then 30
  else if m = 2 then (if isLeap y then 29 else 28)
  else 0

/-- Validity of a year/month/day triple, exactly the check V8 performs on an
ISO `"YYYY-MM-DD"` string: `new Date(s)` is invalid iff this is false. -/
def validDate (y m d : Nat) : Bool :=
  1 ≤ m && m ≤ 12 && 1 ≤ d && d ≤ daysInMonth y m

/-- A calendar date as a (year, month, day) triple. -/
abbrev YMD := Nat × Nat × Nat

/-- Day number of a calendar date (days since 1970-01-01, the value of
`getTime() / 86400000` for a midnight-UTC date).  Standard civil-from-days
formula with floored division. -/
def toDayNumber (y m d : Nat) : Int :=
  let yy : Int := if m ≤ 2 then (y : Int) - 1 else (y : Int)
  let mm : Int := if m ≤ 2 then (m : Int) + 9 else (m : Int) - 3
  365 * yy + Int.fdiv yy 4 - Int.fdiv yy 100 + Int.fdiv yy 400 +
    Int.fdiv (153 * mm + 2) 5 + (d : Int) - 1 - 719468

/-- Day number of a triple. -/
def dayNum (c : YMD) : Int := toDayNumber c.1 c.2.1 c.2.2

/-! ## Status classification sites

Three places in the application classify an expiry date against today
(`daysUntilExpiry = differenceInDays(expiry, today)`, whole days). -/

/-- Status values used by the scanner's `calculateStatus`. -/
inductive FoodStatus
  | expired
  | useSoon
  | safe
deriving DecidableEq, Repr

/-- `calculateStatus` from `BarcodeScanner.tsx` (both variants are
identical): `expired` if `daysUntilExpiry < 0`, `use-soon` if `<= 3`,
otherwise `safe`.  `expiry` and `today` are day numbers. -/
def calculateStatus (expiry today : Int) : FoodStatus :=
  let daysUntilExpiry := expiry - today
  if daysUntilExpiry < 0 then .expired
  else if daysUntilExpiry ≤ 3 then .useSoon
  else .safe

/-- `getItemStatus` from `pages/Dashboard.tsx` (the inventory list):
`expired` if `< 0`, `critical` if `<= 2`, `warning` if `<= 5`, else
`safe`.  Only the `status` string field is modelled. -/
def getItemStatusDashboard (expiry today : Int) : String :=
  let daysUntilExpiry := expiry - today
  if daysUntilExpiry < 0 then "expired"
  else if daysUntilExpiry ≤ 2 then "critical"
  else if daysUntilExpiry ≤ 5 then "warning"
  else "safe"

/-- `getItemStatus` from `pages/AddItem.tsx`: `expired` when
`isPast(expiry)`, `warning` when `daysUntilExpiry <= 3`, else `safe`.
At midnight granularity `isPast(expiry)` is `expiry < today`. -/
def getItemStatusAddItem (expiry today : Int) : String :=
  let daysUntilExpiry := expiry - today
  if expiry < today then "expired"
  else if daysUntilExpiry ≤ 3 then "warning"
  else "safe"

/-- The Status Rule exactly as the specification words it: `daysLeft = D - T`
in whole days; `daysLeft < 0` gives expired, `0 <= daysLeft <= 3` gives
use-soon, `daysLeft > 3` gives safe. -/
def specStatusRule (d t : Int) : FoodStatus :=
  let daysLeft := d - t
  if daysLeft < 0 then .expired
  else if 0 ≤ daysLeft ∧ daysLeft ≤ 3 then .useSoon
  else .safe

/-! ## Barcode lookup (`handleScanSuccess`) -/

/-- The `Product` record of `BarcodeScanner.tsx`. -/
structure Product where
  name : String
  brand : String
  category : String
  suggestedAction : FoodStatus
  estimatedShelfLife : Nat
deriving DecidableEq, Repr

/-- The static `mockProductDatabase` of `BarcodeScanner.tsx` (identical in
both variants), as an association list keyed by barcode. -/
def mockProductDatabase : List (String × Product) :=
  [ ("8901030804521",
      ⟨"Organic Whole Wheat Bread", "Mother Dairy", "Bakery", .useSoon, 5⟩),
    ("8901030702024",
      ⟨"Fresh Milk", "Amul", "Dairy", .useSoon, 7⟩),
    ("8902519005410",
      ⟨"Basmati Rice", "India Gate", "Grains", .safe, 365⟩),
    ("8901030804538",
      ⟨"Greek Yogurt", "Epigamia", "Dairy", .useSoon, 14⟩),
    ("8906010351013",
      ⟨"Mixed Fruit Jam", "Kissan", "Spreads", .safe, 180⟩) ]

/-- `mockProductDatabase[barcode]`: association-list lookup. -/
def lookupProduct (barcode : String) : Option Product :=
  (mockProductDatabase.find? (fun p => p.1 = barcode)).map (·.2)

/-- JavaScript `s.slice(-6)`: the last six characters of `s`, or all of `s`
when it is shorter than six characters. -/
def sliceLast6 (s : String) : String :=
  ⟨s.toList.drop (s.toList.length - 6)⟩

/-- The product that `handleScanSuccess` displays for a scanned barcode
(both variants): the mock-database entry when present, otherwise the
generic fallback product built from the barcode.  This function is total:
no barcode makes the handler fail. -/
def handleScanSuccessProduct (barcode : String) : Product :=
  match lookupProduct barcode with
  | some product => product
  | none =>
      { name := "Product " ++ sliceLast6 barcode
        brand := "Unknown Brand"
        category := "General"
        suggestedAction := .safe
        estimatedShelfLife := 30 }

/-! ## Character classes used by the regular expressions

JavaScript semantics, restricted to the ASCII repertoire that the
patterns and the modelled inputs use. -/

/-- Class `\d` = `[0-9]`. -/
def isDigitC (c : Char) : Bool := c.isDigit

/-- Separator class `[\/\-\.]`. -/
def isSepC (c : Char) : Bool := c = '/' || c = '-' || c = '.'

/-- Class `\s` (ASCII part). -/
def isSpaceC (c : Char) : Bool :=
  c = ' ' || c = '\t' || c = '\n' || c = '\r' || c = '\x0b' || c = '\x0c'

/-- Class `[:\s]`. -/
def isColonSpaceC (c : Char) : Bool := c = ':' || isSpaceC c

/-- Class `\w` = `[A-Za-z0-9_]`, used by the `\b` assertion. -/
def isWordC (c : Char) : Bool := c.isAlphanum || c = '_'

/-! ## A small backtracking matcher

The scanner's regular expressions are sequences of literal-token
alternations, character-class repetitions and `\b` assertions.  Matching
follows JavaScript's preference order: alternatives are tried left to
right, repetitions are greedy, and on failure the engine backtracks. -/

/-- Length of the maximal prefix of `cs` whose characters satisfy `p`. -/
def charRunLen (p : Char → Bool) : List Char → Nat
  | [] => 0
  | c :: cs => if p c then charRunLen p cs + 1 else 0

/-- Greedy bounded repetition with backtracking: try to consume `n`
characters satisfying `p` (then `n - 1`, ..., down to `lo`), passing the
consumed characters and the remainder to the continuation `k`; the first
success wins.  Seeded with `n` = the largest feasible length. -/
def tryTake {α : Type} (p : Char → Bool) (lo : Nat)
    (k : List Char → List Char → Option α) : Nat → List Char → Option α
  | n, cs =>
    match (if lo ≤ n ∧ n ≤ cs.length ∧ (cs.take n).all p
           then k (cs.take n) (cs.drop n) else none) with
    | some r => some r
    | none =>
      match n with
      | 0 => none
      | Nat.succ m => tryTake p lo k m cs

/-- Greedy repetition `p{lo,hi}` with backtracking, in continuation style. -/
def greedyRep {α : Type} (p : Char → Bool) (lo hi : Nat) (cs : List Char)
    (k : List Char → List Char → Option α) : Option α :=
  tryTake p lo k (min hi (charRunLen p cs)) cs

/-- Match one separator character `[\/\-\.]`. -/
def matchSep {α : Type} (cs : List Char) (k : List Char → Option α) : Option α :=
  match cs with
  | c :: rest => if isSepC c then k rest else none
  | [] => none

/-- Case-insensitive literal: consume `lit` (given lowercase) from the
front of `cs`. -/
def stripLitCI : List Char → List Char → Option (List Char)
  | [], cs => some cs
  | _ :: _, [] => none
  | p :: ps, c :: cs => if c.toLower = p then stripLitCI ps cs else none

/-- Literal word, `\s*`, literal word (e.g. `best\s*before`), with the
greedy gap handled by `greedyRep`. -/
def matchTwoWordsCI {α : Type} (w1 w2 : List Char) (cs : List Char)
    (k : List Char → Option α) : Option α :=
  match stripLitCI w1 cs with
  | none => none
  | some cs1 =>
    greedyRep isSpaceC 0 cs1.length cs1 fun _ cs2 =>
      match stripLitCI w2 cs2 with
      | none => none
      | some cs3 => k cs3

/-- The numeric triple `(\d{1,2})[\/\-\.](\d{1,2})[\/\-\.](\d{ylo,yhi})`,
passing the three captured digit groups and the remainder to `k`. -/
def matchTriple {α : Type} (ylo yhi : Nat) (cs : List Char)
    (k : List Char → List Char → List Char → List Char → Option α) : Option α :=
  greedyRep isDigitC 1 2 cs fun g1 cs1 =>
    matchSep cs1 fun cs2 =>
      greedyRep isDigitC 1 2 cs2 fun g2 cs3 =>
        matchSep cs3 fun cs4 =>
          greedyRep isDigitC ylo yhi cs4 fun g3 rest => k g1 g2 g3 rest

/-- The year-first triple `(\d{4})[\/\-\.](\d{1,2})[\/\-\.](\d{1,2})`. -/
def matchTripleYearFirst {α : Type} (cs : List Char)
    (k : List Char → List Char → List Char → List Char → Option α) : Option α :=
  greedyRep isDigitC 4 4 cs fun g1 cs1 =>
    matchSep cs1 fun cs2 =>
      greedyRep isDigitC 1 2 cs2 fun g2 cs3 =>
        matchSep cs3 fun cs4 =>
          greedyRep isDigitC 1 2 cs4 fun g3 rest => k g1 g2 g3 rest

/-- Captured digit groups of one regex match, in group order. -/
abbrev Groups := List Char × List Char × List Char

/-! ## Token alternations

Each alternation lists its alternatives in the exact order of the regex
source; `expiry` precedes `exp` because `(?:iry)?` is greedy. -/

/-- Tokens `exp(?:iry)?|expires?|best\s*before|use\s*by` of the newer
variant's labeled-expiry pattern. -/
def matchExpTokA {α : Type} (cs : List Char) (k : List Char → Option α) : Option α :=
  (stripLitCI "expiry".toList cs).bind k <|>
  (stripLitCI "exp".toList cs).bind k <|>
  (stripLitCI "expires".toList cs).bind k <|>
  (stripLitCI "expire".toList cs).bind k <|>
  matchTwoWordsCI "best".toList "before".toList cs k <|>
  matchTwoWordsCI "use".toList "by".toList cs k

/-- Tokens `mfg|manufactured|mfd|production\s*date` of the newer variant's
labeled-manufacture pattern. -/
def matchMfgTokA {α : Type} (cs : List Char) (k : List Char → Option α) : Option α :=
  (stripLitCI "mfg".toList cs).bind k <|>
  (stripLitCI "manufactured".toList cs).bind k <|>
  (stripLitCI "mfd".toList cs).bind k <|>
  matchTwoWordsCI "production".toList "date".toList cs k

/-- Tokens `exp|expiry|expires|best before|use by` of the older variant's
labeled-expiry pattern (literal spaces). -/
def matchExpTokB {α : Type} (cs : List Char) (k : List Char → Option α) : Option α :=
  (stripLitCI "exp".toList cs).bind k <|>
  (stripLitCI "expiry".toList cs).bind k <|>
  (stripLitCI "expires".toList cs).bind k <|>
  (stripLitCI "best before".toList cs).bind k <|>
  (stripLitCI "use by".toList cs).bind k

/-- Tokens `mfg|manufactured|mfd|production date` of the older variant's
labeled-manufacture pattern (literal space). -/
def matchMfgTokB {α : Type} (cs : List Char) (k : List Char → Option α) : Option α :=
  (stripLitCI "mfg".toList cs).bind k <|>
  (stripLitCI "manufactured".toList cs).bind k <|>
  (stripLitCI "mfd".toList cs).bind k <|>
  (stripLitCI "production date".toList cs).bind k

/-! ## The five patterns of the newer variant's `parseDateFromText` -/

/-- Pattern 1: `(?:exp(?:iry)?|expires?|best\s*before|use\s*by)[:\s]*`
followed by the numeric triple with 2-4-digit year. -/
def matchP1A (cs : List Char) : Option (Groups × List Char) :=
  matchExpTokA cs fun cs1 =>
    greedyRep isColonSpaceC 0 cs1.length cs1 fun _ cs2 =>
      matchTriple 2 4 cs2 fun g1 g2 g3 rest => some ((g1, g2, g3), rest)

/-- Pattern 2: `(?:mfg|manufactured|mfd|production\s*date)[:\s]*` followed
by the numeric triple with 2-4-digit year. -/
def matchP2A (cs : List Char) : Option (Groups × List Char) :=
  matchMfgTokA cs fun cs1 =>
    greedyRep isColonSpaceC 0 cs1.length cs1 fun _ cs2 =>
      matchTriple 2 4 cs2 fun g1 g2 g3 rest => some ((g1, g2, g3), rest)

/-- Pattern 3: `(\d{4})[\/\-\.](\d{1,2})[\/\-\.](\d{1,2})` (ISO-first). -/
def matchP3A (cs : List Char) : Option (Groups × List Char) :=
  matchTripleYearFirst cs fun g1 g2 g3 rest => some ((g1, g2, g3), rest)

/-- The `\b` assertion before the first digit of a match: satisfied iff
the preceding character (if any) is not a word character.  (When the next
character is not a digit the match fails anyway, so this is equivalent to
the full two-sided `\b` condition at these positions.) -/
def wordBoundaryBefore (prev : Option Char) : Bool :=
  match prev with
  | none => true
  | some c => !isWordC c

/-- The `\b` assertion after the final digit of a match: satisfied iff the
following character (if any) is not a word character. -/
def wordBoundaryAfter (rest : List Char) : Bool :=
  match rest with
  | [] => true
  | c :: _ => !isWordC c

/-- Pattern 4: `\b(\d{1,2})[\/\-\.](\d{1,2})[\/\-\.](\d{4})\b`. -/
def matchP4A (prev : Option Char) (cs : List Char) : Option (Groups × List Char) :=
  if wordBoundaryBefore prev then
    matchTriple 4 4 cs fun g1 g2 g3 rest =>
      if wordBoundaryAfter rest then some ((g1, g2, g3), rest) else none
  else none

/-- Pattern 5: `\b(\d{1,2})[\/\-\.](\d{1,2})[\/\-\.](\d{2})\b`. -/
def matchP5A (prev : Option Char) (cs : List Char) : Option (Groups × List Char) :=
  if wordBoundaryBefore prev then
    matchTriple 2 2 cs fun g1 g2 g3 rest =>
      if wordBoundaryAfter rest then some ((g1, g2, g3), rest) else none
  else none

/-! ## Global and first-match scanning -/

/-- The `while (pattern.exec(text))` loop with the `g` flag: find each
leftmost match, collect its capture groups, and continue scanning after
the match end (tracking the character before the current position for
`\b`).  The fuel argument only justifies termination; every match of the
patterns above consumes at least one character, so with fuel
`text.length + 1` it never runs out. -/
def scanAllAux (step : Option Char → List Char → Option (Groups × List Char)) :
    Nat → Option Char → List Char → List Groups
  | 0, _, _ => []
  | Nat.succ fuel, prev, cs =>
    match step prev cs with
    | some (g, rest) =>
        g :: scanAllAux step fuel ((cs.take (cs.length - rest.length)).getLast?) rest
    | none =>
      match cs with
      | [] => []
      | c :: t => scanAllAux step fuel (some c) t

/-- All matches of a pattern in a text, in order. -/
def scanAll (step : Option Char → List Char → Option (Groups × List Char))
    (text : List Char) : List Groups :=
  scanAllAux step (text.length + 1) none text

/-- `text.match(pattern)` without the `g` flag: capture groups of the
leftmost match, if any. -/
def scanFirst (step : List Char → Option (Groups × List Char)) :
    List Char → Option Groups
  | [] => none
  | c :: t =>
    match step (c :: t) with
    | some (g, _) => some g
    | none => scanFirst step t

/-! ## Normalization (newer variant) -/

/-- Numeric value of a captured digit group (`parseInt`). -/
def parseNatDigits (cs : List Char) : Nat :=
  cs.foldl (fun n c => 10 * n + (c.toNat - 48)) 0

/-- Two-digit-year expansion of the newer variant: years `00`-`50` map to
the current century, `51`-`99` to the previous one. -/
def normYear2A (currentYear yy : Nat) : Nat :=
  let currentCentury := currentYear / 100 * 100
  if yy ≤ 50 then currentCentury + yy else currentCentury - 100 + yy

/-- Two-digit-year expansion of the older variant: always the current
century. -/
def normYear2B (currentYear yy : Nat) : Nat :=
  currentYear / 100 * 100 + yy

/-- Day/month resolution: try `new Date(year-month-day)` first and fall
back to the swapped `new Date(year-day-month)`. -/
def resolveDayMonth (year month day : Nat) : Option YMD :=
  if validDate year month day then some (year, month, day)
  else if validDate year day month then some (year, day, month)
  else none

/-- JavaScript `date.setFullYear(date.getFullYear() + 1)`: increments the
year; Feb 29 of a leap year rolls over to Mar 1 when the next year is not
leap (the only possible overflow). -/
def setFullYearPlus1 (c : YMD) : YMD :=
  if validDate (c.1 + 1) c.2.1 c.2.2 then (c.1 + 1, c.2.1, c.2.2)
  else (c.1 + 1, 3, 1)

/-- The per-match body of the newer `parseDateFromText` loop: destructure
the groups (year first for pattern 3), expand a 2-digit year, resolve
day/month with the swap fallback, enforce `2000 < year < 2100` on the
constructed date, apply the manufacture shelf-life offset
(`setFullYear + 1`), and enforce the recency bound
`differenceInDays(date, today) > -30`. -/
def normalizeMatchA (today : YMD) (isMfgPattern isYYYYFirst : Bool)
    (g : Groups) : Option YMD :=
  let dayS := if isYYYYFirst then g.2.2 else g.1
  let monthS := g.2.1
  let yearS := if isYYYYFirst then g.1 else g.2.2
  let yearN := if yearS.length = 2
    then normYear2A today.1 (parseNatDigits yearS)
    else parseNatDigits yearS
  match resolveDayMonth yearN (parseNatDigits monthS) (parseNatDigits dayS) with
  | none => none
  | some c =>
    if 2000 < c.1 ∧ c.1 < 2100 then
      let c2 := if isMfgPattern then setFullYearPlus1 c else c
      if dayNum c2 - dayNum today > -30 then some c2 else none
    else none

/-- The `foundDates` list of the newer `parseDateFromText`: all candidates
produced across the five patterns, in pattern order. -/
def foundDatesA (today : YMD) (text : List Char) : List YMD :=
  ((scanAll (fun _ cs => matchP1A cs) text).filterMap (normalizeMatchA today false false)) ++
  ((scanAll (fun _ cs => matchP2A cs) text).filterMap (normalizeMatchA today true false)) ++
  ((scanAll (fun _ cs => matchP3A cs) text).filterMap (normalizeMatchA today false true)) ++
  ((scanAll matchP4A text).filterMap (normalizeMatchA today false false)) ++
  ((scanAll matchP5A text).filterMap (normalizeMatchA today false false))

/-! ## Deduplication and sorting -/

/-- Insertion into a JavaScript `Set` keeps the first occurrence of each
value; `seen` is the set built so far. -/
def jsSetDedupAux (seen : List Int) : List Int → List Int
  | [] => []
  | x :: xs =>
    if x ∈ seen then jsSetDedupAux seen xs
    else x :: jsSetDedupAux (x :: seen) xs

/-- `Array.from(new Set(l))`: first-occurrence deduplication. -/
def jsSetDedup (l : List Int) : List Int := jsSetDedupAux [] l

/-- The filter-and-deduplicate output step:
`Array.from(new Set(times)).sort(ascending)`. -/
def uniqueSorted (l : List Int) : List Int :=
  List.insertionSort (· ≤ ·) (jsSetDedup l)

/-- The newer `parseDateFromText`: candidate day numbers, deduplicated by
exact timestamp and sorted ascending. -/
def parseDateFromTextA (today : YMD) (text : List Char) : List Int :=
  uniqueSorted ((foundDatesA today text).map dayNum)

/-! ## The older variant's `parseDateFromText` -/

/-- Older variant, pattern 1: labeled expiry token, `[:\s]*`, triple. -/
def matchP1B (cs : List Char) : Option (Groups × List Char) :=
  matchExpTokB cs fun cs1 =>
    greedyRep isColonSpaceC 0 cs1.length cs1 fun _ cs2 =>
      matchTriple 2 4 cs2 fun g1 g2 g3 rest => some ((g1, g2, g3), rest)

/-- Older variant, pattern 2: labeled manufacture token, `[:\s]*`, triple. -/
def matchP2B (cs : List Char) : Option (Groups × List Char) :=
  matchMfgTokB cs fun cs1 =>
    greedyRep isColonSpaceC 0 cs1.length cs1 fun _ cs2 =>
      matchTriple 2 4 cs2 fun g1 g2 g3 rest => some ((g1, g2, g3), rest)

/-- Older variant, pattern 3: the plain unlabeled triple
`(\d{1,2})[\/\-\.](\d{1,2})[\/\-\.](\d{2,4})`. -/
def matchP3B (cs : List Char) : Option (Groups × List Char) :=
  matchTriple 2 4 cs fun g1 g2 g3 rest => some ((g1, g2, g3), rest)

/-- The per-pattern body of the older `parseDateFromText`: expand a
2-digit year by always adding the current century, construct the single
`new Date(year-month-day)` (no day/month swap), and on success add 365
days for a manufacture-labeled match.  Returns a day number. -/
def tryPatternB (today : YMD) (isMfgPattern : Bool) (g : Option Groups) : Option Int :=
  match g with
  | none => none
  | some (dayS, monthS, yearS) =>
    let yearN := if yearS.length = 2
      then normYear2B today.1 (parseNatDigits yearS)
      else parseNatDigits yearS
    let month := parseNatDigits monthS
    let day := parseNatDigits dayS
    if validDate yearN month day then
      some (toDayNumber yearN month day + (if isMfgPattern then 365 else 0))
    else none

/-- The older `parseDateFromText`: try the three patterns in order; a
pattern whose first match yields an invalid date falls through to the
next pattern; returns the first resolved date, or `none`. -/
def parseDateFromTextB (today : YMD) (text : List Char) : Option Int :=
  match tryPatternB today false (scanFirst matchP1B text) with
  | some d => some d
  | none =>
    match tryPatternB today true (scanFirst matchP2B text) with
    | some d => some d
    | none => tryPatternB today false (scanFirst matchP3B text)

/-! ## `extractProductName` (identical in both variants) -/

/-- Tokens `exp|expiry|expires|best before|use by|mfg|manufactured|mfd` of
the date-stripping regex in `extractProductName` (literal spaces, listed
in source order — `exp` first, with backtracking into the rest of the
pattern). -/
def matchStripTok {α : Type} (cs : List Char) (k : List Char → Option α) : Option α :=
  (stripLitCI "exp".toList cs).bind k <|>
  (stripLitCI "expiry".toList cs).bind k <|>
  (stripLitCI "expires".toList cs).bind k <|>
  (stripLitCI "best before".toList cs).bind k <|>
  (stripLitCI "use by".toList cs).bind k <|>
  (stripLitCI "mfg".toList cs).bind k <|>
  (stripLitCI "manufactured".toList cs).bind k <|>
  (stripLitCI "mfd".toList cs).bind k

/-- One match of the stripping regex
`(?:exp|expiry|expires|best before|use by|mfg|manufactured|mfd)[:\s]*\d{1,2}[\/\-\.]\d{1,2}[\/\-\.]\d{2,4}`
at the current position, returning the remainder after the match. -/
def stripDateMatcher (cs : List Char) : Option (List Char) :=
  matchStripTok cs fun cs1 =>
    greedyRep isColonSpaceC 0 cs1.length cs1 fun _ cs2 =>
      matchTriple 2 4 cs2 fun _ _ _ rest => some rest

/-- One match of the noise regex `barcode|batch|lot|net weight|ingredients`
at the current position. -/
def noiseMatcher (cs : List Char) : Option (List Char) :=
  stripLitCI "barcode".toList cs <|>
  stripLitCI "batch".toList cs <|>
  stripLitCI "lot".toList cs <|>
  stripLitCI "net weight".toList cs <|>
  stripLitCI "ingredients".toList cs

/-- `text.replace(pattern, '')` with the `g` flag: delete every
non-overlapping leftmost match, scanning left to right.  Fuel as in
`scanAllAux` (every match consumes at least one character). -/
def replaceAllAux (m : List Char → Option (List Char)) : Nat → List Char → List Char
  | 0, cs => cs
  | Nat.succ _, [] => []
  | Nat.succ fuel, c :: t =>
    match m (c :: t) with
    | some rest => replaceAllAux m fuel rest
    | none => c :: replaceAllAux m fuel t

/-- Delete every match of `m` from `cs`. -/
def replaceAll (m : List Char → Option (List Char)) (cs : List Char) : List Char :=
  replaceAllAux m (cs.length + 1) cs

/-- JavaScript `line.trim()` (ASCII whitespace). -/
def trimJS (cs : List Char) : List Char :=
  ((cs.dropWhile isSpaceC).reverse.dropWhile isSpaceC).reverse

/-- The regex `^\d+$`: a non-empty all-digit line. -/
def isPureDigits (cs : List Char) : Bool :=
  !cs.isEmpty && cs.all isDigitC

/-- `extractProductName`: strip the labeled-date substrings, strip the
noise tokens, split into lines, trim, keep lines of length 4-49 that are
not purely numeric, and return the first survivor or the placeholder
`"Scanned Product"`. -/
def extractProductName (text : List Char) : List Char :=
  let cleaned := replaceAll noiseMatcher (replaceAll stripDateMatcher text)
  let lines := ((cleaned.splitOn '\n').map trimJS).filter
    (fun line => decide (3 < line.length) && decide (line.length < 50))
  let lines2 := lines.filter (fun line => !isPureDigits line)
  lines2.headD "Scanned Product".toList

/-! ## Disambiguation outcome (`handleImageUpload`, newer variant) -/

/-- The three terminal outcomes of one OCR scan attempt. -/
inductive ScanOutcome
  | needsManualEntry (productName : List Char)
  | autoResolved (date : Int) (productName : List Char)
  | awaitingUserChoice (candidates : List Int) (productName : List Char)
deriving DecidableEq, Repr

/-- The outcome `handleImageUpload` produces from the parsed candidate
list: zero dates show manual entry (with the extracted name pre-filled as
the detected product name, but no date), exactly one date is saved
immediately with the extracted name, and two or more dates are presented
for user choice. -/
def scanOutcomeA (today : YMD) (text : List Char) : ScanOutcome :=
  match parseDateFromTextA today text with
  | [] => .needsManualEntry (extractProductName text)
  | [d] => .autoResolved d (extractProductName text)
  | ds => .awaitingUserChoice ds (extractProductName text)

/-- The trimmed lines of the cleaned text, as `extractProductName`
computes them before its line filters. -/
def cleanedLinesEPN (text : List Char) : List (List Char) :=
  ((replaceAll noiseMatcher (replaceAll stripDateMatcher text)).splitOn '\n').map trimJS

/-- The line-keeping predicate of `extractProductName`: trimmed length in
`[4, 49]` and not purely numeric. -/
def keepsLine (line : List Char) : Bool :=
  (decide (3 < line.length) && decide (line.length < 50)) && !isPureDigits line

/-- The status string `getItemStatusAddItem` uses for each cell of the
Status Rule partition (only the labels differ from the rule's names). -/
def statusLabelAddItem : FoodStatus → String
  | .expired => "expired"
  | .useSoon => "warning"
  | .safe => "safe"

/-! ## Helper lemmas -/

theorem mem_jsSetDedupAux (seen : List Int) (l : List Int) (a : Int) :
    a ∈ jsSetDedupAux seen l ↔ a ∈ l ∧ a ∉ seen := by
  induction l generalizing seen with
  | nil => simp [jsSetDedupAux]
  | cons x xs ih =>
    by_cases hx : x ∈ seen
    · simp only [jsSetDedupAux, if_pos hx, ih, List.mem_cons]
      constructor
      · rintro ⟨h1, h2⟩; exact ⟨Or.inr h1, h2⟩
      · rintro ⟨h1 | h1, h2⟩
        · exact absurd hx (h1 ▸ h2)
        · exact ⟨h1, h2⟩
    · simp only [jsSetDedupAux, if_neg hx, List.mem_cons, ih]
      by_cases hax : a = x
      · subst hax; simp [hx]
      · simp only [hax, false_or]

theorem nodup_jsSetDedupAux (seen : List Int) (l : List Int) :
    (jsSetDedupAux seen l).Nodup := by
  induction l generalizing seen with
  | nil => simp [jsSetDedupAux]
  | cons x xs ih =>
    by_cases hx : x ∈ seen
    · simpa [jsSetDedupAux, if_pos hx] using ih seen
    · simp only [jsSetDedupAux, if_neg hx, List.nodup_cons]
      refine ⟨fun hmem => ?_, ih (x :: seen)⟩
      exact ((mem_jsSetDedupAux _ _ _).mp hmem).2 (List.mem_cons_self x seen)

theorem mem_jsSetDedup (l : List Int) (a : Int) : a ∈ jsSetDedup l ↔ a ∈ l := by
  simp [jsSetDedup, mem_jsSetDedupAux]

theorem nodup_jsSetDedup (l : List Int) : (jsSetDedup l).Nodup :=
  nodup_jsSetDedupAux [] l

theorem nodup_uniqueSorted (l : List Int) : (uniqueSorted l).Nodup :=
  ((List.perm_insertionSort (· ≤ ·) (jsSetDedup l)).nodup_iff).mpr (nodup_jsSetDedup l)

theorem sorted_uniqueSorted (l : List Int) : (uniqueSorted l).Sorted (· ≤ ·) :=
  List.sorted_insertionSort (· ≤ ·) (jsSetDedup l)

theorem pairwise_lt_uniqueSorted (l : List Int) :
    (uniqueSorted l).Pairwise (· < ·) := by
  have hs : (uniqueSorted l).Pairwise (· ≤ ·) := sorted_uniqueSorted l
  have hn : (uniqueSorted l).Pairwise (· ≠ ·) := nodup_uniqueSorted l
  exact (hs.and hn).imp (fun h => lt_of_le_of_ne h.1 h.2)

theorem mem_uniqueSorted (l : List Int) (a : Int) : a ∈ uniqueSorted l ↔ a ∈ l := by
  rw [uniqueSorted, List.mem_insertionSort, mem_jsSetDedup]

theorem uniqueSorted_perm_congr (l l' : List Int) (h : l.Perm l') :
    uniqueSorted l = uniqueSorted l' := by
  have hperm : (uniqueSorted l).Perm (uniqueSorted l') := by
    refine ((List.perm_insertionSort (· ≤ ·) (jsSetDedup l)).trans ?_).trans
      (List.perm_insertionSort (· ≤ ·) (jsSetDedup l')).symm
    rw [List.perm_ext_iff_of_nodup (nodup_jsSetDedup l) (nodup_jsSetDedup l')]
    intro a
    rw [mem_jsSetDedup, mem_jsSetDedup]
    exact h.mem_iff
  exact List.eq_of_perm_of_sorted hperm (sorted_uniqueSorted l) (sorted_uniqueSorted l')

theorem resolveDayMonth_valid (y m d : Nat) (p : YMD)
    (h : resolveDayMonth y m d = some p) : validDate p.1 p.2.1 p.2.2 = true := by
  unfold resolveDayMonth at h
  split_ifs at h with h1 h2
  · cases h; exact h1
  · cases h; exact h2

theorem validDate_march1 (y : Nat) : validDate y 3 1 = true := by
  simp [validDate, daysInMonth]

theorem setFullYearPlus1_year (c : YMD) : (setFullYearPlus1 c).1 = c.1 + 1 := by
  unfold setFullYearPlus1
  split_ifs <;> rfl

theorem setFullYearPlus1_valid (c : YMD) :
    validDate (setFullYearPlus1 c).1 (setFullYearPlus1 c).2.1 (setFullYearPlus1 c).2.2 = true := by
  unfold setFullYearPlus1
  split_ifs with h
  · exact h
  · exact validDate_march1 (c.1 + 1)

/-- Shape of a successful `normalizeMatchA`: a day/month-resolved date `p`
with `2000 < p.year < 2100`, the manufacture offset applied on top, and
the recency bound holding of the result. -/
theorem normalizeMatchA_some (today : YMD) (isMfgPattern isYYYYFirst : Bool)
    (g : Groups) (c : YMD) (h : normalizeMatchA today isMfgPattern isYYYYFirst g = some c) :
    ∃ p : YMD, validDate p.1 p.2.1 p.2.2 = true ∧ 2000 < p.1 ∧ p.1 < 2100 ∧
      c = (if isMfgPattern then setFullYearPlus1 p else p) ∧
      dayNum c - dayNum today > -30 := by
  simp only [normalizeMatchA] at h
  split at h
  · exact absurd h (by simp)
  · rename_i p hres
    split_ifs at h with hy hm hr hr2
    · cases h
      exact ⟨p, resolveDayMonth_valid _ _ _ _ hres, hy.1, hy.2, by rw [if_pos hm], hr⟩
    · cases h
      exact ⟨c, resolveDayMonth_valid _ _ _ _ hres, hy.1, hy.2, by rw [if_neg hm], hr2⟩

theorem normalizeMatchA_bounds (today : YMD) (isMfgPattern isYYYYFirst : Bool)
    (g : Groups) (c : YMD) (h : normalizeMatchA today isMfgPattern isYYYYFirst g = some c) :
    validDate c.1 c.2.1 c.2.2 = true ∧ 2000 < c.1 ∧ c.1 ≤ 2100 := by
  obtain ⟨p, hvalid, hlo, hhi, hc, _⟩ := normalizeMatchA_some today isMfgPattern isYYYYFirst g c h
  cases isMfgPattern with
  | false =>
    rw [if_neg Bool.false_ne_true] at hc
    subst hc
    exact ⟨hvalid, hlo, by omega⟩
  | true =>
    rw [if_pos rfl] at hc
    subst hc
    refine ⟨setFullYearPlus1_valid p, ?_, ?_⟩
    · rw [setFullYearPlus1_year]; omega
    · rw [setFullYearPlus1_year]; omega

theorem normalizeMatchA_recency (today : YMD) (isMfgPattern isYYYYFirst : Bool)
    (g : Groups) (c : YMD) (h : normalizeMatchA today isMfgPattern isYYYYFirst g = some c) :
    dayNum c - dayNum today > -30 :=
  (normalizeMatchA_some today isMfgPattern isYYYYFirst g c h).choose_spec.2.2.2.2

/-- Every candidate in `foundDates` comes from a successful
`normalizeMatchA` on some pattern match. -/
theorem mem_foundDatesA (today : YMD) (text : List Char) (c : YMD)
    (h : c ∈ foundDatesA today text) :
    ∃ isMfgPattern isYYYYFirst g,
      normalizeMatchA today isMfgPattern isYYYYFirst g = some c := by
  simp only [foundDatesA, List.mem_append, List.mem_filterMap] at h
  rcases h with ((((⟨g, _, hg⟩ | ⟨g, _, hg⟩) | ⟨g, _, hg⟩) | ⟨g, _, hg⟩) | ⟨g, _, hg⟩)
  · exact ⟨false, false, g, hg⟩
  · exact ⟨true, false, g, hg⟩
  · exact ⟨false, true, g, hg⟩
  · exact ⟨false, false, g, hg⟩
  · exact ⟨false, false, g, hg⟩

/-- First element of a doubly filtered list, as a single `find?`. -/
theorem headD_filter_filter (p q : List Char → Bool) (l : List (List Char))
    (d : List Char) :
    ((l.filter p).filter q).headD d = (l.find? (fun x => p x && q x)).getD d := by
  induction l with
  | nil => rfl
  | cons x xs ih =>
    rw [List.filter_cons]
    by_cases hp : p x
    · rw [if_pos hp, List.filter_cons]
      by_cases hq : q x
      · rw [if_pos hq, List.find?_cons_of_pos _ (by simp [hp, hq])]
        rfl
      · rw [if_neg hq, List.find?_cons_of_neg _ (by simp [hp, hq])]
        exact ih
    · rw [if_neg hp, List.find?_cons_of_neg _ (by simp [hp])]
      exact ih

/-! ## Claim theorems -/

/-- C2 (counterexample): the inventory list (`Dashboard.getItemStatus`)
does not compute the Status Rule partition: it gives the same status to
`daysLeft = 3` and `daysLeft = 5`, which the rule (and the scanner's
`calculateStatus`) places in different cells (`use-soon` vs `safe`).  So
the classification sites are not extensionally equal. -/
theorem c2_counterexample :
    getItemStatusDashboard 3 0 = getItemStatusDashboard 5 0 ∧
    calculateStatus 3 0 ≠ calculateStatus 5 0 ∧
    calculateStatus 3 0 = FoodStatus.useSoon ∧
    calculateStatus 5 0 = FoodStatus.safe ∧
    getItemStatusDashboard 3 0 = "warning" := by
  decide

/-- C2 (amended): at whole-day granularity the scanner's
`calculateStatus` computes exactly the specification's Status Rule, and
`AddItem.getItemStatus` computes the same partition with the `use-soon`
cell labeled `"warning"`; the Dashboard site, however, uses thresholds 2
and 5 and a four-way split (see the counterexample). -/
theorem c2_statusrule_sites (expiry today : Int) :
    calculateStatus expiry today = specStatusRule expiry today ∧
    getItemStatusAddItem expiry today = statusLabelAddItem (specStatusRule expiry today) := by
  constructor
  · simp only [calculateStatus, specStatusRule]
    split_ifs <;> first | rfl | (exfalso; omega)
  · simp only [getItemStatusAddItem, specStatusRule]
    split_ifs <;> first | rfl | (exfalso; omega)

/-- C7: the filter-and-deduplicate step (`uniqueSorted`, the
`Array.from(new Set(...)).sort(...)` of `parseDateFromText`) returns a
strictly ascending list (hence no two entries are equal), keeps exactly
the input's dates (duplicates collapse to one entry), and its output is
invariant under permutation of its input. -/
theorem c7_filter_dedup (l l2 : List Int) (h : l.Perm l2) :
    (uniqueSorted l).Pairwise (· < ·) ∧
    (∀ a, a ∈ uniqueSorted l ↔ a ∈ l) ∧
    uniqueSorted l = uniqueSorted l2 :=
  ⟨pairwise_lt_uniqueSorted l, mem_uniqueSorted l, uniqueSorted_perm_congr l l2 h⟩

/-- C7 (witness): a concrete permuted pair with a duplicate. -/
theorem c7_witness :
    ([3, 1, 3] : List Int).Perm [3, 3, 1] ∧
    uniqueSorted [3, 1, 3] = uniqueSorted [3, 3, 1] ∧
    uniqueSorted [3, 1, 3] = [1, 3] :=
  ⟨by decide, (c7_filter_dedup [3, 1, 3] [3, 3, 1] (by decide)).2.2, by decide⟩

/-- C10: for a barcode absent from the static product table,
`handleScanSuccess` never fails: it produces the generic product
`"Product "` + the last 6 characters of the barcode, brand
`"Unknown Brand"`, category `"General"`, suggested action `safe`, and a
30-day estimated shelf life. -/
theorem c10_generic_product (barcode : String) (h : lookupProduct barcode = none) :
    handleScanSuccessProduct barcode =
      { name := "Product " ++ sliceLast6 barcode
        brand := "Unknown Brand"
        category := "General"
        suggestedAction := FoodStatus.safe
        estimatedShelfLife := 30 } := by
  unfold handleScanSuccessProduct
  rw [h]

/-- C10 (witness): a concrete unknown barcode. -/
theorem c10_witness :
    lookupProduct "1234567890" = none ∧
    handleScanSuccessProduct "1234567890" =
      { name := "Product 567890"
        brand := "Unknown Brand"
        category := "General"
        suggestedAction := FoodStatus.safe
        estimatedShelfLife := 30 } := by
  refine ⟨by decide, ?_⟩
  rw [c10_generic_product "1234567890" (by decide)]
  decide

/-- C3: the scan outcome is exactly one of three: an empty candidate list
gives the manual-entry state (no date auto-filled), a singleton list is
auto-resolved with that date and the extracted product name, and a list
of two or more (necessarily distinct) candidates awaits the user's choice
with the candidates in strictly ascending date order. -/
theorem c3_scan_outcomes (today : YMD) (text : List Char) :
    (parseDateFromTextA today text = [] →
      scanOutcomeA today text = ScanOutcome.needsManualEntry (extractProductName text)) ∧
    (∀ d, parseDateFromTextA today text = [d] →
      scanOutcomeA today text = ScanOutcome.autoResolved d (extractProductName text)) ∧
    (2 ≤ (parseDateFromTextA today text).length →
      scanOutcomeA today text =
        ScanOutcome.awaitingUserChoice (parseDateFromTextA today text)
          (extractProductName text) ∧
      (parseDateFromTextA today text).Pairwise (· < ·)) := by
  refine ⟨?_, ?_, ?_⟩
  · intro h
    simp [scanOutcomeA, h]
  · intro d h
    simp [scanOutcomeA, h]
  · intro h
    constructor
    · rcases hl : parseDateFromTextA today text with _ | ⟨a, _ | ⟨b, t⟩⟩
      · rw [hl] at h; simp at h
      · rw [hl] at h; simp at h
      · simp [scanOutcomeA, hl]
    · simp only [parseDateFromTextA]
      exact pairwise_lt_uniqueSorted _

/-- C5 (amended): a normalized candidate survives the recency filter only
if its date is strictly later than 30 days before today
(`differenceInDays > -30`, i.e. at least `today - 29`); a date exactly 30
days in the past is discarded. -/
theorem c5_amended (today : YMD) (isMfgPattern isYYYYFirst : Bool) (g : Groups) (c : YMD)
    (h : normalizeMatchA today isMfgPattern isYYYYFirst g = some c) :
    dayNum c - dayNum today > -30 ∧ ¬(dayNum c ≤ dayNum today - 30) := by
  have hr := normalizeMatchA_recency today isMfgPattern isYYYYFirst g c h
  exact ⟨hr, by omega⟩

/-- C6 (amended): every candidate that reaches the `foundDates` list is a
valid calendar date whose (post-offset) year `y` satisfies
`2000 < y ≤ 2100`; the strict upper bound `y < 2100` is enforced only on
the pre-offset date, so a manufacture-labeled candidate can reach year
exactly 2100. -/
theorem c6_amended (today : YMD) (text : List Char) (c : YMD)
    (h : c ∈ foundDatesA today text) :
    validDate c.1 c.2.1 c.2.2 = true ∧ 2000 < c.1 ∧ c.1 ≤ 2100 := by
  obtain ⟨mfg, yf, g, hg⟩ := mem_foundDatesA today text c h
  exact normalizeMatchA_bounds today mfg yf g c hg

/-- C8 (amended): the newer variant's Normalizer first attempts
`(year, month, day)`, falls back to the swapped `(year, day, month)`, and
silently discards the match when both constructions are invalid; the
older variant attempts only `(year, month, day)` with no swap (see the
counterexample). -/
theorem c8_amended (y m d : Nat) (h1 : validDate y m d = false) (h2 : validDate y d m = true) :
    resolveDayMonth y m d = some (y, d, m) ∧
    (∀ y2 m2 d2, validDate y2 m2 d2 = false → validDate y2 d2 m2 = false →
      resolveDayMonth y2 m2 d2 = none) ∧
    parseDateFromTextA (2024, 6, 10) ("EXP: 07/25/2024".toList) = [toDayNumber 2024 7 25] ∧
    parseDateFromTextB (2024, 6, 10) ("EXP: 99/99/2024".toList) = none := by
  refine ⟨?_, ?_, by decide, by decide⟩
  · simp only [resolveDayMonth]
    rw [if_neg (by simp [h1]), if_pos h2]
  · intro y2 m2 d2 hv1 hv2
    simp only [resolveDayMonth]
    rw [if_neg (by simp [hv1]), if_neg (by simp [hv2])]

/-- C8 (witness): month 13 is invalid, so `01/13/2024` resolves through
the swap to 2024-01-13 in the newer variant. -/
theorem c8_witness :
    validDate 2024 13 1 = false ∧ validDate 2024 1 13 = true ∧
    resolveDayMonth 2024 13 1 = some (2024, 1, 13) :=
  ⟨by decide, by decide, (c8_amended 2024 13 1 (by decide) (by decide)).1⟩

/-- C1 (counterexample): for "MFG: 01/01/2024" with today = 2024-06-10,
the newer variant resolves to 2025-01-01, which is not the parsed date
plus 365 days (2024 is a leap year); the older variant resolves to the
parsed date plus exactly 365 days, which is not 2025-01-01.  The claim
("plus exactly 365 days, yielding 2025-01-01") is false of both. -/
theorem c1_counterexample :
    parseDateFromTextA (2024, 6, 10) ("MFG: 01/01/2024".toList) = [toDayNumber 2025 1 1] ∧
    parseDateFromTextB (2024, 6, 10) ("MFG: 01/01/2024".toList) =
      some (toDayNumber 2024 1 1 + 365) ∧
    toDayNumber 2025 1 1 ≠ toDayNumber 2024 1 1 + 365 := by
  decide

/-- C1 (amended): the older variant's manufacture offset is exactly 365
days (every manufacture candidate it produces is a parsed valid date plus
365 days), so "MFG: 01/01/2024" yields 2024-12-31 there; the newer
variant advances the year by one (`setFullYear + 1`), so the same match
yields 2025-01-01, which is 366 days after the parsed date. -/
theorem c1_amended (today : YMD) (g : Groups) (dd : Int)
    (h : tryPatternB today true (some g) = some dd) :
    (∃ y mo da, validDate y mo da = true ∧ dd = toDayNumber y mo da + 365) ∧
    parseDateFromTextA (2024, 6, 10) ("MFG: 01/01/2024".toList) = [toDayNumber 2025 1 1] ∧
    toDayNumber 2025 1 1 - toDayNumber 2024 1 1 = 366 ∧
    parseDateFromTextB (2024, 6, 10) ("MFG: 01/01/2024".toList) =
      some (toDayNumber 2024 12 31) ∧
    toDayNumber 2024 12 31 = toDayNumber 2024 1 1 + 365 := by
  refine ⟨?_, by decide, by decide, by decide, by decide⟩
  obtain ⟨dayS, monthS, yearS⟩ := g
  simp only [tryPatternB] at h
  split_ifs at h with h1 h2 h3 <;>
    (cases h; exact ⟨_, _, _, by assumption, rfl⟩)

/-- C1 (witness): the amended statement at the match of
"MFG: 01/01/2024". -/
theorem c1_witness :
    tryPatternB (2024, 6, 10) true (some ("01".toList, "01".toList, "2024".toList)) =
      some (toDayNumber 2024 1 1 + 365) ∧
    parseDateFromTextB (2024, 6, 10) ("MFG: 01/01/2024".toList) =
      some (toDayNumber 2024 12 31) :=
  ⟨by decide,
   (c1_amended (2024, 6, 10) ("01".toList, "01".toList, "2024".toList)
     (toDayNumber 2024 1 1 + 365) (by decide)).2.2.2.1⟩

/-- C3 (witness): a text with two surviving candidates awaits the user's
choice. -/
theorem c3_witness :
    2 ≤ (parseDateFromTextA (2024, 6, 10) ("EXP: 15/08/2025\n2026-01-02".toList)).length ∧
    scanOutcomeA (2024, 6, 10) ("EXP: 15/08/2025\n2026-01-02".toList) =
      ScanOutcome.awaitingUserChoice
        (parseDateFromTextA (2024, 6, 10) ("EXP: 15/08/2025\n2026-01-02".toList))
        (extractProductName ("EXP: 15/08/2025\n2026-01-02".toList)) :=
  ⟨by decide,
   ((c3_scan_outcomes (2024, 6, 10) ("EXP: 15/08/2025\n2026-01-02".toList)).2.2 (by decide)).1⟩

/-- C4 (counterexample): the older variant's year normalization has no
00-50/51-99 split: with current year 2024 it normalizes "75" to 2075,
not 1975, so the claim is false at that site. -/
theorem c4_counterexample :
    parseDateFromTextB (2024, 6, 10) ("EXP: 01/01/75".toList) = some (toDayNumber 2075 1 1) ∧
    toDayNumber 2075 1 1 ≠ toDayNumber 1975 1 1 ∧
    normYear2B 2024 75 = 2075 := by
  decide

/-- C4 (amended): the newer variant's normalization does implement the
split (00-50 current century, 51-99 previous century; "05" gives 2005 and
"75" gives 1975 with current year 2024), and it is live in that pipeline;
the older variant always adds the current century. -/
theorem c4_amended (yy : Nat) (h : yy ≤ 99) :
    (yy ≤ 50 → normYear2A 2024 yy = 2000 + yy) ∧
    (50 < yy → normYear2A 2024 yy = 1900 + yy) ∧
    normYear2B 2024 yy = 2000 + yy ∧
    normYear2A 2024 5 = 2005 ∧ normYear2A 2024 75 = 1975 ∧
    parseDateFromTextA (2024, 6, 10) ("EXP: 01/01/30".toList) = [toDayNumber 2030 1 1] := by
  refine ⟨?_, ?_, ?_, by decide, by decide, by decide⟩
  · intro hle
    simp [normYear2A, hle]
  · intro hgt
    simp only [normYear2A]
    rw [if_neg (by omega)]
  · simp [normYear2B]

/-- C4 (witness): the amended statement at `yy = 75`. -/
theorem c4_witness :
    (75 : Nat) ≤ 99 ∧ normYear2A 2024 75 = 1975 :=
  ⟨by decide, (c4_amended 75 (by decide)).2.2.2.2.1⟩

/-- C5 (counterexample): 2024-05-11 is exactly 30 days before
2024-06-10, yet "EXP: 11/05/2024" yields no candidate (the filter demands
`differenceInDays > -30`, not `>= -30`), while the same date one day
later is kept. -/
theorem c5_counterexample :
    toDayNumber 2024 5 11 = toDayNumber 2024 6 10 - 30 ∧
    validDate 2024 5 11 = true ∧
    parseDateFromTextA (2024, 6, 10) ("EXP: 11/05/2024".toList) = [] ∧
    parseDateFromTextA (2024, 6, 10) ("EXP: 12/05/2024".toList) = [toDayNumber 2024 5 12] := by
  decide

/-- C5 (witness): the amended recency bound at a kept candidate 29 days
in the past. -/
theorem c5_witness :
    normalizeMatchA (2024, 6, 10) false false ("12".toList, "05".toList, "2024".toList) =
      some (2024, 5, 12) ∧
    dayNum (2024, 5, 12) - dayNum (2024, 6, 10) > -30 :=
  ⟨by decide,
   (c5_amended (2024, 6, 10) false false ("12".toList, "05".toList, "2024".toList)
     (2024, 5, 12) (by decide)).1⟩

/-- C6 (counterexample): "MFG: 01/01/2099" passes the year bound with its
pre-offset year 2099 and only then receives the one-year offset, so the
candidate (2100, 1, 1) — whose year is not strictly below 2100 — reaches
`foundDates` and survives into the output candidate set. -/
theorem c6_counterexample :
    ((2100, 1, 1) : YMD) ∈ foundDatesA (2024, 6, 10) ("MFG: 01/01/2099".toList) ∧
    ¬((2100 : Nat) < 2100) ∧
    parseDateFromTextA (2024, 6, 10) ("MFG: 01/01/2099".toList) =
      [toDayNumber 2099 1 1, toDayNumber 2100 1 1] := by
  decide

/-- C6 (witness): the amended year bounds at the candidate (2100, 1, 1). -/
theorem c6_witness :
    ((2100, 1, 1) : YMD) ∈ foundDatesA (2024, 6, 10) ("MFG: 01/01/2099".toList) ∧
    (validDate 2100 1 1 = true ∧ 2000 < 2100 ∧ 2100 ≤ 2100) :=
  ⟨by decide,
   c6_amended (2024, 6, 10) ("MFG: 01/01/2099".toList) (2100, 1, 1) (by decide)⟩

/-- C8 (counterexample): the older variant never retries with day and
month swapped: "EXP: 01/13/2024" (month 13 invalid, swapped 2024-01-13
valid) produces no candidate there, contradicting the claim for that
Normalizer. -/
theorem c8_counterexample :
    parseDateFromTextB (2024, 6, 10) ("EXP: 01/13/2024".toList) = none ∧
    validDate 2024 13 1 = false ∧ validDate 2024 1 13 = true := by
  decide

/-- C9 (counterexample): `extractProductName` strips only the labeled
date pattern, not all five: the line "2025-08-15" is a full match of the
ISO date pattern, yet it is returned as the product name instead of being
stripped (the claim would give "Fresh Milk 500ml"). -/
theorem c9_counterexample :
    extractProductName ("2025-08-15\nFresh Milk 500ml".toList) = "2025-08-15".toList ∧
    scanAll (fun _ cs => matchP3A cs) ("2025-08-15".toList) =
      [("2025".toList, "08".toList, "15".toList)] := by
  decide

/-- C9 (amended): `extractProductName` strips the labeled date
substrings (expiry/manufacture tokens followed by a numeric triple) and
the noise tokens, splits into lines, trims, and returns the first line of
length 4-49 that is not purely numeric, or "Scanned Product" when no line
qualifies; unlabeled ISO and generic numeric dates are not stripped. -/
theorem c9_amended (text : List Char) :
    extractProductName text =
      ((cleanedLinesEPN text).find? keepsLine).getD ("Scanned Product".toList) ∧
    extractProductName ("EXP: 15/08/2025\nBATCH 22\nFresh Milk 500ml".toList) =
      "Fresh Milk 500ml".toList := by
  refine ⟨?_, by decide⟩
  simp only [extractProductName, cleanedLinesEPN, keepsLine]
  exact headD_filter_filter _ _ _ _

end FreshTrack
